import Mathlib

/-!
Shallow embedding of the BlueOS Water Linked DVL driver (`dvl-a50/dvl.py` and its
helpers) together with proofs about the claims of its specification.

Conventions:
* Python floats are modelled as exact rationals (`ℚ`) wherever the code only uses
  field arithmetic and comparisons; the two geodesy helpers that call `math.cos`
  are modelled over `ℝ`.
* The byte stream received from the sensor socket is modelled as a `List Char`
  (the code decodes the TCP bytes to a `str` before buffering).
* A Python exception escaping a piece of code is modelled with `Except`;
  a caught-and-defaulted failure is modelled with `Option`.
-/

namespace Dvl

/-! ## Frame assembly (`DvlDriver.run`, dvl.py lines 441-469)

The ingestion loop accumulates received characters in `buf` and, on every
iteration, performs `lines = buf.split("\n", 1)`; when a newline is present the
part before it is one candidate record and the part after it stays buffered.
`splitFirst` is the embedding of `split("\n", 1)`. -/

/-- Embedding of the Python call `buf.split("\n", 1)`, restricted to the
information the loop uses: `some (line, rest)` when a newline occurs in `l`
(with `line` the part before the first newline and `rest` the part after it),
`none` otherwise. -/
def splitFirst : List Char → Option (List Char × List Char)
  | [] => none
  | c :: cs =>
    if c = '\n' then some ([], cs)
    else
      match splitFirst cs with
      | none => none
      | some (line, rest) => some (c :: line, rest)

/-- Repeatedly extract complete lines from the buffer, exactly as the loop does
one line per iteration until no newline remains: the result is the list of
candidate records (in order) and the remaining (newline-free) buffer. -/
def drain (l : List Char) : List (List Char) × List Char :=
  match h : splitFirst l with
  | none => ([], l)
  | some (line, rest) =>
    have : rest.length < l.length := by
      have aux : ∀ (L cand rem : List Char), splitFirst L = some (cand, rem) →
          rem.length < L.length := by
        intro L
        induction L with
        | nil => intro cand rem hsplit; simp [splitFirst] at hsplit
        | cons c cs ih =>
          intro cand rem hsplit
          simp only [splitFirst] at hsplit
          by_cases hc : c = '\n'
          · simp [hc] at hsplit
            simp [← hsplit.2]
          · simp only [hc, if_false] at hsplit
            cases hs : splitFirst cs with
            | none => rw [hs] at hsplit; simp at hsplit
            | some p =>
              rw [hs] at hsplit
              cases p with
              | mk pl pr =>
                simp at hsplit
                have := ih pl pr hs
                simp [← hsplit.2]
                omega
      exact aux l line rest h
    let p := drain rest
    (line :: p.1, p.2)
termination_by l.length

/-! ## JSON decoding (`json.loads` applied to one candidate line)

A recursive-descent parser for the JSON subset the sensor emits (null, booleans,
numbers with optional fraction and exponent, strings with the single-character
escapes, arrays, objects).  `\uXXXX` escapes are not modelled; the DVL telemetry
never contains them.  Numbers are exact rationals. -/

/-- A decoded JSON value. -/
inductive Json where
  | null : Json
  | bool (b : Bool) : Json
  | num (q : ℚ) : Json
  | str (s : List Char) : Json
  | arr (elems : List Json) : Json
  | obj (members : List (List Char × Json)) : Json

def isWsChar (c : Char) : Bool :=
  c = ' ' || c = '\t' || c = '\n' || c = '\r'

/-- Drop leading JSON whitespace. -/
def skipWs : List Char → List Char
  | [] => []
  | c :: cs => if isWsChar c then skipWs cs else c :: cs

/-- Parse the body of a JSON string after the opening quote; returns the decoded
content and the input following the closing quote. -/
def parseStringBody : List Char → Option (List Char × List Char)
  | [] => none
  | c :: cs =>
    if c = '"' then some ([], cs)
    else if c = '\\' then
      match cs with
      | [] => none
      | e :: cs2 =>
        let dec : Option Char :=
          if e = '"' then some '"'
          else if e = '\\' then some '\\'
          else if e = '/' then some '/'
          else if e = 'n' then some '\n'
          else if e = 't' then some '\t'
          else if e = 'r' then some '\r'
          else if e = 'b' then some (Char.ofNat 8)
          else if e = 'f' then some (Char.ofNat 12)
          else none
        match dec with
        | none => none
        | some d =>
          match parseStringBody cs2 with
          | none => none
          | some (s, rest) => some (d :: s, rest)
    else
      match parseStringBody cs with
      | none => none
      | some (s, rest) => some (c :: s, rest)
termination_by l => l.length

/-- Longest leading run of decimal digits. -/
def takeDigits : List Char → List Char × List Char
  | [] => ([], [])
  | c :: cs =>
    if c.isDigit then
      let p := takeDigits cs
      (c :: p.1, p.2)
    else ([], c :: cs)

def digitsToNat (ds : List Char) : ℕ :=
  ds.foldl (fun a c => a * 10 + (c.toNat - 48)) 0

/-- Parse a JSON number (sign, integer part without redundant leading zeros,
optional fraction, optional exponent), as an exact rational. -/
def parseNumber (l : List Char) : Option (ℚ × List Char) :=
  let (neg, l1) := match l with
    | '-' :: r => (true, r)
    | _ => (false, l)
  let (ip, l2) := takeDigits l1
  if ip = [] then none
  else if ip.length > 1 && ip.head? = some '0' then none
  else
    let (fp, l3) := match l2 with
      | '.' :: r => takeDigits r
      | _ => ([], l2)
    if l2 ≠ [] && l2.head? = some '.' && fp = [] then none
    else
      let (hasExp, expNeg, ed, l4) : Bool × Bool × List Char × List Char :=
        match l3 with
        | 'e' :: '+' :: r => (true, false, (takeDigits r).1, (takeDigits r).2)
        | 'e' :: '-' :: r => (true, true, (takeDigits r).1, (takeDigits r).2)
        | 'e' :: r => (true, false, (takeDigits r).1, (takeDigits r).2)
        | 'E' :: '+' :: r => (true, false, (takeDigits r).1, (takeDigits r).2)
        | 'E' :: '-' :: r => (true, true, (takeDigits r).1, (takeDigits r).2)
        | 'E' :: r => (true, false, (takeDigits r).1, (takeDigits r).2)
        | _ => (false, false, [], l3)
      if hasExp && ed = [] then none
      else
        let mantissa : ℚ := (digitsToNat ip : ℚ) + (digitsToNat fp : ℚ) / (10 : ℚ) ^ fp.length
        let expo : ℤ := if expNeg then -(digitsToNat ed : ℤ) else (digitsToNat ed : ℤ)
        let mag : ℚ := mantissa * (10 : ℚ) ^ expo
        some (if neg then -mag else mag, l4)

mutual

/-- Parse one JSON value (whitespace-tolerant), returning it and the rest of the
input.  `fuel` bounds the recursion depth; `dvlJsonLoads` supplies enough fuel
for any input of the given length. -/
def parseValue : ℕ → List Char → Option (Json × List Char)
  | 0, _ => none
  | fuel + 1, l =>
    match skipWs l with
    | [] => none
    | c :: cs =>
      if c = 'n' then
        match cs with
        | 'u' :: 'l' :: 'l' :: r => some (.null, r)
        | _ => none
      else if c = 't' then
        match cs with
        | 'r' :: 'u' :: 'e' :: r => some (.bool true, r)
        | _ => none
      else if c = 'f' then
        match cs with
        | 'a' :: 'l' :: 's' :: 'e' :: r => some (.bool false, r)
        | _ => none
      else if c = '"' then
        match parseStringBody cs with
        | some (s, r) => some (.str s, r)
        | none => none
      else if c = '[' then
        match skipWs cs with
        | ']' :: r => some (.arr [], r)
        | l2 =>
          match parseElems fuel l2 with
          | some (es, r) => some (.arr es, r)
          | none => none
      else if c = '{' then
        match skipWs cs with
        | '}' :: r => some (.obj [], r)
        | l2 =>
          match parseMembers fuel l2 with
          | some (ms, r) => some (.obj ms, r)
          | none => none
      else
        match parseNumber (c :: cs) with
        | some (q, r) => some (.num q, r)
        | none => none

/-- Parse a non-empty comma-separated array tail, up to and including `]`. -/
def parseElems : ℕ → List Char → Option (List Json × List Char)
  | 0, _ => none
  | fuel + 1, l =>
    match parseValue fuel l with
    | none => none
    | some (v, r) =>
      match skipWs r with
      | ',' :: r2 =>
        match parseElems fuel r2 with
        | some (es, r3) => some (v :: es, r3)
        | none => none
      | ']' :: r2 => some ([v], r2)
      | _ => none

/-- Parse a non-empty comma-separated object-member tail, up to and including
`}`. -/
def parseMembers : ℕ → List Char → Option (List (List Char × Json) × List Char)
  | 0, _ => none
  | fuel + 1, l =>
    match skipWs l with
    | '"' :: cs =>
      match parseStringBody cs with
      | none => none
      | some (key, r) =>
        match skipWs r with
        | ':' :: r2 =>
          match parseValue fuel r2 with
          | none => none
          | some (v, r3) =>
            match skipWs r3 with
            | ',' :: r4 =>
              match parseMembers fuel r4 with
              | some (ms, r5) => some ((key, v) :: ms, r5)
              | none => none
            | '}' :: r4 => some ([(key, v)], r4)
            | _ => none
        | _ => none
    | _ => none

end

/-- The model of `json.loads(line)`: parse one JSON document and require that
only whitespace follows it; `none` models `json.loads` raising. -/
def dvlJsonLoads (line : List Char) : Option Json :=
  match parseValue (2 * line.length + 4) line with
  | some (j, rest) => if skipWs rest = [] then some j else none
  | none => none

/-! ## The per-iteration record-extraction step (dvl.py lines 464-469)

```
if len(buf) > 0:
    lines = buf.split("\n", 1)
    if len(lines) > 1:
        buf = lines[1]
        data = json.loads(lines[0])
```

`json.loads` is *not* wrapped in a `try`/`except`: when the candidate line is
malformed the exception escapes the step (and the `run` loop).  `Except.error`
models that uncaught exception; `Except.ok (buf, data)` is the normal outcome
with the new buffer and the optional decoded record. -/
def extractRecord (buf : List Char) : Except (List Char) (List Char × Option Json) :=
  if buf.length > 0 then
    match splitFirst buf with
    | some (line, rest) =>
      match dvlJsonLoads line with
      | some j => Except.ok (rest, some j)
      | none => Except.error line
    | none => Except.ok (buf, none)
  else Except.ok (buf, none)

/-! ## Chunked feeding of the frame assembler (for chunk-size independence)

`feedChunk` appends a received chunk to the buffer and extracts every complete
line, as the loop does one line per iteration between receives; `feedAll` feeds
a list of chunks in order starting from the empty buffer. -/

def feedChunk : List Char × List (List Char) → List Char → List Char × List (List Char)
  | (buf, recs), chunk =>
    let p := drain (buf ++ chunk)
    (p.2, recs ++ p.1)

def feedAll (chunks : List (List Char)) : List Char × List (List Char) :=
  chunks.foldl feedChunk ([], [])

/-! ## Driver data model (class `DvlDriver`, dvl.py)

Python floats are modelled as exact rationals.  External reads (REST bridge
responses, poll outcomes) appear as explicit inputs. -/

/-- dvl.py line 22: `DVL_DOWN = 1`. -/
def DVL_DOWN : ℤ := 1

/-- dvl.py line 23: `DVL_FORWARD = 2`. -/
def DVL_FORWARD : ℤ := 2

/-- The `MessageType` enum (dvl.py lines 27-34). -/
inductive MessageType where
  | POSITION_DELTA : MessageType
  | POSITION_ESTIMATE : MessageType
  | SPEED_ESTIMATE : MessageType
deriving DecidableEq, Repr

/-- The fields a `velocity` record must provide (dvl.py lines 358-366). -/
structure VelocityData where
  vx : ℚ
  vy : ℚ
  vz : ℚ
  altitude : ℚ
  velocity_valid : Bool
  fom : ℚ
  time : ℚ
deriving DecidableEq, Repr

/-- The fields a `position_local` record must provide (dvl.py lines 404-408). -/
structure PositionLocalData where
  x : ℚ
  y : ℚ
  z : ℚ
  roll : ℚ
  pitch : ℚ
  yaw : ℚ
  ts : ℚ
deriving DecidableEq, Repr

/-- The mutable driver fields the record handlers and configuration calls touch.
`orientation` is an integer as in the Python class (only 1 = down and
2 = forward are ever accepted by `set_orientation`). -/
structure DriverState where
  orientation : ℤ
  rangefinder : Bool
  should_send : MessageType
  origin : ℚ × ℚ
  reset_counter : ℕ
  timestamp : ℚ
  last_attitude : ℚ × ℚ × ℚ
  current_attitude : ℚ × ℚ × ℚ
  enabled : Bool
deriving DecidableEq, Repr

/-- Driver state at thread construction (class attribute defaults plus
`__init__`, dvl.py lines 47-80). -/
def initialState : DriverState where
  orientation := DVL_DOWN
  rangefinder := true
  should_send := MessageType.POSITION_DELTA
  origin := (0, 0)
  reset_counter := 0
  timestamp := 0
  last_attitude := (0, 0, 0)
  current_attitude := (0, 0, 0)
  enabled := true

/-- One outbound message to the REST bridge (`Mavlink2RestHelper`), identified
by its semantic content.  Attitude payloads are carried in the degrees the
driver computes with; the helper converts them to radians on the wire. -/
inductive MavMessage where
  | rangefinder (distance : ℚ) : MavMessage
  | visionDelta (position_delta : ℚ × ℚ × ℚ) (attitude_delta : ℚ × ℚ × ℚ)
      (dt : ℚ) (confidence : ℚ) : MavMessage
  | visionSpeedEstimate (velocity : ℚ × ℚ × ℚ) : MavMessage
  | visionPositionEstimate (timestamp : ℚ) (position : ℚ × ℚ × ℚ)
      (attitude : ℚ × ℚ × ℚ) (reset_counter : ℕ) : MavMessage
  | gpsOrigin (lat lon : ℚ) : MavMessage
deriving DecidableEq, Repr

/-- dvl.py lines 371-374: scale the figure-of-merit to a confidence percentage.
`confidence = 100 * (1 - min(_fom_max, fom) / _fom_max) if valid else 0`
with `_fom_max = 0.4`. -/
def confidence (fom : ℚ) (valid : Bool) : ℚ :=
  if valid then 100 * (1 - min 0.4 fom / 0.4) else 0

/-- Embedding of `DvlDriver.handle_velocity` (dvl.py lines 356-402), as a function from the
driver state and the record fields to the new state and the messages sent, in
order. -/
def handle_velocity (s : DriverState) (data : VelocityData) : DriverState × List MavMessage :=
  let dt := data.time / 1000
  let dx := dt * data.vx
  let dy := dt * data.vy
  let dz := dt * data.vz
  let conf := confidence data.fom data.velocity_valid
  if data.velocity_valid = false then (s, [])
  else
    let rangefinderMsgs : List MavMessage :=
      if s.rangefinder ∧ data.altitude > 0.05 then [.rangefinder data.altitude] else []
    let dispatchMsgs : List MavMessage :=
      if s.should_send = MessageType.POSITION_DELTA then
        let dRoll := s.current_attitude.1 - s.last_attitude.1
        let dPitch := s.current_attitude.2.1 - s.last_attitude.2.1
        let dYaw := s.current_attitude.2.2 - s.last_attitude.2.2
        let position_delta :=
          if s.orientation = DVL_DOWN then (dx, dy, dz)
          else if s.orientation = DVL_FORWARD then (dz, dy, -dx)
          else ((0 : ℚ), (0 : ℚ), (0 : ℚ))
        let attitude_delta :=
          if s.orientation = DVL_DOWN then (dRoll, dPitch, dYaw)
          else if s.orientation = DVL_FORWARD then (dYaw, dPitch, -dRoll)
          else ((0 : ℚ), (0 : ℚ), (0 : ℚ))
        [.visionDelta position_delta attitude_delta (data.time * 1000) conf]
      else if s.should_send = MessageType.SPEED_ESTIMATE then
        let velocity :=
          if s.orientation = DVL_DOWN then (data.vx, data.vy, data.vz)
          else (data.vz, data.vy, -data.vx)
        [.visionSpeedEstimate velocity]
      else []
    ({ s with last_attitude := s.current_attitude }, rangefinderMsgs ++ dispatchMsgs)

/-- Embedding of `DvlDriver.handle_position_local` (dvl.py lines 404-411). -/
def handle_position_local (s : DriverState) (data : PositionLocalData) :
    DriverState × List MavMessage :=
  let s1 := { s with current_attitude := (data.roll, data.pitch, data.yaw) }
  if s1.should_send = MessageType.POSITION_ESTIMATE then
    let s2 := { s1 with timestamp := data.ts }
    (s2, [.visionPositionEstimate s2.timestamp (data.x, data.y, data.z)
      s2.current_attitude s2.reset_counter])
  else (s1, [])

/-! ## Origin manager (`has_origin_set`, `set_current_position`, `set_gps_origin`,
dvl.py lines 209-263)

`has_origin_set` first reads the current `GPS_GLOBAL_ORIGIN` timestamp (a failed
or NaN read is defaulted to 0), then polls up to five times (0.5 s apart) for a
report whose `time_usec` differs.  Each poll either fails — `mav.get` failing,
`json.loads` raising, or a required key missing, all caught by the same
`except`, which makes the function return `False` — or yields a well-formed
report.  A poll outcome is therefore an `Option OriginReport`. -/

/-- A well-formed `GPS_GLOBAL_ORIGIN` report: its `time_usec` and its raw
integer-scaled latitude/longitude (the code multiplies them by `1e-7`). -/
structure OriginReport where
  time_usec : ℚ
  latitude : ℚ
  longitude : ℚ
deriving DecidableEq, Repr

/-- Whether a poll outcome is a report whose timestamp equals the previously
observed one (the `continue` case of the loop). -/
def isSamePoll (oldTime : ℚ) : Option OriginReport → Bool
  | some r => decide (r.time_usec = oldTime)
  | none => false

/-- The `for attempt in range(5)` loop body of `has_origin_set`: first failing
poll returns `(False, no origin change)`; first report with a differing
timestamp returns `(True, the reported origin scaled by 1e-7)`; a report with
the same timestamp continues with the next attempt; exhausting the list
returns `(False, no origin change)`. -/
def hasOriginSetLoop (oldTime : ℚ) : List (Option OriginReport) → Bool × Option (ℚ × ℚ)
  | [] => (false, none)
  | none :: _ => (false, none)
  | some r :: rest =>
    if r.time_usec ≠ oldTime then (true, some (r.latitude * 1e-7, r.longitude * 1e-7))
    else hasOriginSetLoop oldTime rest

/-- Embedding of `DvlDriver.has_origin_set` (dvl.py lines 209-232).  `oldTimeRead` is the
initial timestamp read (`none` models the caught read failure or NaN, defaulted
to 0); `polls` are the outcomes of the at most five poll attempts.  Returns the
boolean result and the new origin when one was recorded (`none` = `self.origin`
untouched). -/
def has_origin_set (oldTimeRead : Option ℚ) (polls : List (Option OriginReport)) :
    Bool × Option (ℚ × ℚ) :=
  hasOriginSetLoop (oldTimeRead.getD 0) (polls.take 5)

/-! ## The configuration / origin operations as a state machine (for the
`reset_counter` invariant)

Each operation carries the external inputs the corresponding method reads.
Only the state mutations matter here; the outbound messages of `set_current_position`
messages involve `math.cos`-based geodesy and are not part of this machine. -/

/-- One externally-invoked operation on the driver, with the external reads it
performs as payload.  For `setCurrentPosition`, `depthRead` is the outcome of
`float(self.mav.get("/VFR_HUD/message/alt"))` and `attitudeRead` the outcome of
parsing `self.mav.get("/ATTITUDE/message")` (dvl.py lines 246-250): `none`
models the read raising uncaught — `mav.get` returns `None` on failure and
`float(None)`/`json.loads(None)` raise, as does a missing attitude key. -/
inductive DvlOp where
  | setGpsOrigin (lat lon : ℚ) : DvlOp
  | setCurrentPosition (lat lon : ℚ) (oldTimeRead : Option ℚ)
      (polls : List (Option OriginReport)) (depthRead : Option ℚ)
      (attitudeRead : Option (ℚ × ℚ × ℚ)) : DvlOp
  | handleVelocity (d : VelocityData) : DvlOp
  | handlePositionLocal (p : PositionLocalData) : DvlOp
  | setOrientation (o : ℤ) : DvlOp
  | setEnabled (b : Bool) : DvlOp
  | setUseAsRangefinder (b : Bool) : DvlOp
  | setShouldSend (m : MessageType) : DvlOp
deriving DecidableEq, Repr

/-- The state change of one operation:
* `setGpsOrigin` (dvl.py lines 257-263) stores `(lat, lon)`, no counter change
  (`blueoshelper.post` catches its own failures, so the assignment always runs);
* `setCurrentPosition` (dvl.py lines 234-255) calls `has_origin_set`; if it
  returned `False` it falls back to `set_gps_origin`; otherwise the origin
  recorded by the probe is kept and the code reads depth and attitude
  (lines 246-250) *before* `reset_counter += 1` (line 252) — if either read
  raises, the exception escapes to the HTTP caller with the counter untouched
  (and the probe-recorded origin already stored), and only when both reads
  succeed is the counter incremented and the position estimate sent;
* the record handlers contribute their state components;
* `setOrientation` (lines 177-185) accepts only `DVL_FORWARD`/`DVL_DOWN`;
* the remaining setters store their argument. -/
def dvlStep (s : DriverState) : DvlOp → DriverState
  | .setGpsOrigin lat lon => { s with origin := (lat, lon) }
  | .setCurrentPosition lat lon oldTimeRead polls depthRead attitudeRead =>
    let r := has_origin_set oldTimeRead polls
    if r.1 = false then { s with origin := (lat, lon) }
    else
      let s1 := { s with origin := r.2.getD s.origin }
      match depthRead, attitudeRead with
      | some _, some _ => { s1 with reset_counter := s1.reset_counter + 1 }
      | _, _ => s1
  | .handleVelocity d => (handle_velocity s d).1
  | .handlePositionLocal p => (handle_position_local s p).1
  | .setOrientation o =>
    if o = DVL_FORWARD ∨ o = DVL_DOWN then { s with orientation := o } else s
  | .setEnabled b => { s with enabled := b }
  | .setUseAsRangefinder b => { s with rangefinder := b }
  | .setShouldSend m => { s with should_send := m }

/-- Run a sequence of operations. -/
def dvlRun (s : DriverState) (ops : List DvlOp) : DriverState :=
  ops.foldl dvlStep s

/-- The operations on whose execution `reset_counter` is incremented: exactly a
`set_current_position` whose `has_origin_set` probe succeeds and whose depth and
attitude reads both succeed, so that execution reaches `reset_counter += 1`. -/
def opBumpsCounter : DvlOp → Bool
  | .setCurrentPosition _ _ oldTimeRead polls depthRead attitudeRead =>
    (has_origin_set oldTimeRead polls).1 && depthRead.isSome && attitudeRead.isSome
  | _ => false

/-! ## Thermal guard (`check_temperature`, dvl.py lines 413-426) -/

/-- The externally observable effects of one `check_temperature` call: the HTTP
status query, the local status update plus operator alert on an over-hot
reading, and the local status update that surfaces a caught failure. -/
inductive TempEffect where
  | query : TempEffect
  | statusTooHot (temp : ℚ) : TempEffect
  | alertTooHot (temp : ℚ) : TempEffect
  | statusError : TempEffect
deriving DecidableEq, Repr

/-- Embedding of `DvlDriver.check_temperature`: `last` is `self.last_temperature_check_time`,
`now` the current time, and `queryResult` the parsed temperature of the status
response (`none` models any exception in the `try` body, caught and surfaced as
a status update only).  Returns the new `last_temperature_check_time` and the
effects in order.  The check interval is 30 s and the threshold 45 °C
(dvl.py lines 72-73). -/
def check_temperature (last now : ℚ) (queryResult : Option ℚ) : ℚ × List TempEffect :=
  if now - last < 30 then (last, [])
  else
    match queryResult with
    | some temp =>
      if temp > 45 then (now, [.query, .statusTooHot temp, .alertTooHot temp])
      else (now, [.query])
    | none => (now, [.query, .statusError])

/-- The times at which a sequence of `check_temperature` invocations actually
performs the status query, starting from `last_temperature_check_time = last`;
each event is an invocation time paired with its would-be query outcome. -/
def firedTimes (last : ℚ) : List (ℚ × Option ℚ) → List ℚ
  | [] => []
  | (now, q) :: rest =>
    let r := check_temperature last now q
    if TempEffect.query ∈ r.2 then now :: firedTimes r.1 rest
    else firedTimes r.1 rest

/-! ## Geodesy helpers (`longitude_scale`, `lat_lng_to_NE_XY_cm`,
dvl.py lines 24 and 193-207), over `ℝ` because of `math.cos`. -/

/-- dvl.py line 24: `LATLON_TO_CM = 1.1131884502145034e5`. -/
noncomputable def LATLON_TO_CM : ℝ := 1.1131884502145034e5

/-- Embedding of `DvlDriver.longitude_scale` (dvl.py lines 193-199):
`max(cos(radians(lat)), 0.01)`. -/
noncomputable def longitude_scale (lat : ℝ) : ℝ :=
  max (Real.cos (lat * Real.pi / 180)) 0.01

/-- Embedding of `DvlDriver.lat_lng_to_NE_XY_cm` (dvl.py lines 201-207), with the stored
origin as an explicit argument. -/
noncomputable def lat_lng_to_NE_XY_cm (origin : ℝ × ℝ) (lat lon : ℝ) : ℝ × ℝ :=
  ((lat - origin.1) * LATLON_TO_CM,
   longitude_scale ((lat + origin.1) / 2) * LATLON_TO_CM * (lon - origin.2))

/-! # Supporting lemmas -/

theorem splitFirst_length_lt {l line rest : List Char}
    (h : splitFirst l = some (line, rest)) : rest.length < l.length := by
  induction l generalizing line rest with
  | nil => simp [splitFirst] at h
  | cons c cs ih =>
    simp only [splitFirst] at h
    by_cases hc : c = '\n'
    · simp [hc] at h
      simp [← h.2]
    · simp only [hc, if_false] at h
      cases hs : splitFirst cs with
      | none => rw [hs] at h; simp at h
      | some p =>
        rw [hs] at h
        cases p with
        | mk pl pr =>
          simp at h
          have := ih hs
          simp [← h.2]
          omega

theorem splitFirst_append_some {a : List Char} {line rest : List Char} (b : List Char)
    (h : splitFirst a = some (line, rest)) :
    splitFirst (a ++ b) = some (line, rest ++ b) := by
  induction a generalizing line rest with
  | nil => simp [splitFirst] at h
  | cons c cs ih =>
    simp only [splitFirst] at h
    by_cases hc : c = '\n'
    · simp [hc] at h
      simp [splitFirst, hc, ← h.1, ← h.2]
    · simp only [hc, if_false] at h
      cases hs : splitFirst cs with
      | none => rw [hs] at h; simp at h
      | some p =>
        rw [hs] at h
        cases p with
        | mk pl pr =>
          simp at h
          simp only [List.cons_append, splitFirst, hc, if_false, List.append_eq]
          rw [ih hs]
          simp [← h.1, ← h.2]

theorem drain_of_none {l : List Char} (h : splitFirst l = none) :
    drain l = ([], l) := by
  rw [drain.eq_def]
  split <;> simp_all

theorem drain_of_some {l line rest : List Char} (h : splitFirst l = some (line, rest)) :
    drain l = (line :: (drain rest).1, (drain rest).2) := by
  rw [drain.eq_def]
  split <;> simp_all

theorem splitFirst_drain_snd (l : List Char) : splitFirst (drain l).2 = none := by
  suffices key : ∀ (n : ℕ) (l : List Char), l.length ≤ n → splitFirst (drain l).2 = none from
    key l.length l le_rfl
  intro n
  induction n with
  | zero =>
    intro l hl
    have : l = [] := List.length_eq_zero.mp (by omega)
    subst this
    have h0 : splitFirst [] = none := rfl
    rw [drain_of_none h0]
    exact h0
  | succ n ih =>
    intro l hl
    cases h : splitFirst l with
    | none => rw [drain_of_none h]; exact h
    | some p =>
      cases p with
      | mk line rest =>
        rw [drain_of_some h]
        have hlt := splitFirst_length_lt h
        exact ih rest (by omega)

theorem drain_append (a b : List Char) :
    drain (a ++ b) =
      ((drain a).1 ++ (drain ((drain a).2 ++ b)).1, (drain ((drain a).2 ++ b)).2) := by
  suffices key : ∀ (n : ℕ) (a : List Char), a.length ≤ n →
      drain (a ++ b) =
        ((drain a).1 ++ (drain ((drain a).2 ++ b)).1, (drain ((drain a).2 ++ b)).2) from
    key a.length a le_rfl
  intro n
  induction n with
  | zero =>
    intro a ha
    have : a = [] := List.length_eq_zero.mp (by omega)
    subst this
    have h0 : splitFirst [] = none := rfl
    rw [drain_of_none h0]
    simp
  | succ n ih =>
    intro a ha
    cases h : splitFirst a with
    | none => rw [drain_of_none h]; simp
    | some p =>
      cases p with
      | mk line rest =>
        rw [drain_of_some h, drain_of_some (splitFirst_append_some b h)]
        have hlt := splitFirst_length_lt h
        rw [ih rest (by omega)]
        simp

theorem feedAll_foldl (chunks : List (List Char)) :
    ∀ (buf : List Char) (recs : List (List Char)), splitFirst buf = none →
      chunks.foldl feedChunk (buf, recs) =
        ((drain (buf ++ chunks.flatten)).2, recs ++ (drain (buf ++ chunks.flatten)).1) := by
  induction chunks with
  | nil =>
    intro buf recs hbuf
    simp [drain_of_none hbuf]
  | cons c cs ih =>
    intro buf recs hbuf
    have hstep : feedChunk (buf, recs) c = ((drain (buf ++ c)).2, recs ++ (drain (buf ++ c)).1) :=
      rfl
    simp only [List.foldl_cons, hstep]
    rw [ih _ _ (splitFirst_drain_snd (buf ++ c))]
    rw [List.flatten_cons, show buf ++ (c ++ cs.flatten) = (buf ++ c) ++ cs.flatten by simp,
      drain_append (buf ++ c) cs.flatten]
    simp

/-! # Claims -/

/-- C1, counterexample.  The candidate line `notjson` fails to parse as
JSON, and the record-extraction step propagates the decode error instead of
dropping the record: the claim that the decode exception never escapes the
per-iteration extraction step is false on the code, where `json.loads` (dvl.py
line 469) is not guarded by any `try`/`except`. -/
theorem extract_record_error_on_malformed_line :
    extractRecord ("notjson\nrest".toList) = Except.error ("notjson".toList) := by
  rfl

/-- C1, amended.  For every buffer containing a complete candidate line,
the record-extraction step propagates the decode failure (`Except.error`) when
the line does not parse as JSON — it does *not* drop the record and continue —
while a line that parses yields its record together with the remainder kept
buffered. -/
theorem extract_record_propagates (buf line rest : List Char)
    (hsplit : splitFirst buf = some (line, rest)) :
    (dvlJsonLoads line = none → extractRecord buf = Except.error line) ∧
    ∀ j, dvlJsonLoads line = some j → extractRecord buf = Except.ok (rest, some j) := by
  have hlen : buf.length > 0 := by
    cases buf with
    | nil => simp [splitFirst] at hsplit
    | cons c cs => simp
  constructor
  · intro h
    simp [extractRecord, hlen, hsplit, h]
  · intro j h
    simp [extractRecord, hlen, hsplit, h]

/-- C1, witness for the amended theorem, at the concrete buffer
`"true\nx"`. -/
theorem extract_record_propagates_witness :
    extractRecord ("true\nx".toList) = Except.ok ("x".toList, some (Json.bool true)) :=
  (extract_record_propagates ("true\nx".toList) ("true".toList) ("x".toList)
    (by rfl)).2 (Json.bool true) (by rfl)

/-- C2.  Chunk-size independence of the frame assembler: feeding any
partition of a stream chunk by chunk (append to buffer, split at newlines,
keep the remainder buffered) produces the same extracted lines, the same final
buffer, and hence the same sequence of decoded records, as feeding the whole
stream at once. -/
theorem frame_assembler_chunk_independence (chunks : List (List Char)) :
    feedAll chunks = feedAll [chunks.flatten] ∧
    ((feedAll chunks).2).map dvlJsonLoads = ((feedAll [chunks.flatten]).2).map dvlJsonLoads := by
  have hnil : splitFirst [] = none := rfl
  have h1 := feedAll_foldl chunks [] [] hnil
  have h2 := feedAll_foldl [chunks.flatten] [] [] hnil
  have : feedAll chunks = feedAll [chunks.flatten] := by
    rw [feedAll, feedAll, h1, h2]
    simp
  exact ⟨this, by rw [this]⟩

/-- C3, counterexample.  The confidence is not clamped below: the code
clamps `fom` only from above (`min(_fom_max, fom)`), so a negative
figure-of-merit yields a confidence above 100, contradicting the claim that
the confidence lies in [0, 100] for every `fom`. -/
theorem confidence_exceeds_100_on_negative_fom :
    confidence (-0.4) true = 200 ∧ ¬(confidence (-0.4) true ≤ 100) := by
  constructor <;> norm_num [confidence, min_def]

/-- C3, amended.  The computed confidence equals
`100 * (1 - min(fom, 0.4) / 0.4)` when `velocity_valid` is true and 0
otherwise; for every `fom ≥ 0` it lies in [0, 100], it is monotonically
non-increasing in `fom` on [0, 0.4], it equals 100 at `fom = 0`, and it equals
0 for invalid records. -/
theorem confidence_properties (f g : ℚ) (hf : 0 ≤ f) :
    confidence f true = 100 * (1 - min 0.4 f / 0.4) ∧
    confidence f false = 0 ∧
    confidence 0 true = 100 ∧
    0 ≤ confidence f true ∧
    confidence f true ≤ 100 ∧
    (f ≤ g → g ≤ 0.4 → confidence g true ≤ confidence f true) := by
  have hrw : ∀ x : ℚ, confidence x true = 100 - 250 * min 0.4 x := by
    intro x
    simp only [confidence, if_true]
    ring
  have hminf_le : min (0.4 : ℚ) f ≤ 0.4 := min_le_left _ _
  have hminf_nonneg : 0 ≤ min (0.4 : ℚ) f := le_min (by norm_num) hf
  refine ⟨rfl, rfl, ?_, ?_, ?_, ?_⟩
  · rw [hrw]
    norm_num [min_def]
  · rw [hrw]
    linarith
  · rw [hrw]
    linarith
  · intro hfg hg
    have hmono : min (0.4 : ℚ) f ≤ min 0.4 g := min_le_min le_rfl hfg
    rw [hrw, hrw]
    linarith

/-- C3, witness for the amended theorem: the [0, 100] bound at `fom = 0.5`
(inside the clamp region above 0.4) and monotonicity between `fom = 0.1` and
`fom = 0.3`. -/
theorem confidence_properties_witness :
    (0 ≤ confidence 0.5 true ∧ confidence 0.5 true ≤ 100) ∧
      confidence 0.3 true ≤ confidence 0.1 true := by
  have h1 := confidence_properties 0.5 0 (by norm_num)
  have h2 := confidence_properties 0.1 0.3 (by norm_num)
  exact ⟨⟨h1.2.2.2.1, h1.2.2.2.2.1⟩, h2.2.2.2.2.2 (by norm_num) (by norm_num)⟩

/-- C6.  A velocity record with `velocity_valid = false` produces no
outbound message of any kind — no rangefinder update, no position delta, no
speed estimate — and leaves the driver state untouched, regardless of the other
fields, the orientation, and the send-mode. -/
theorem invalid_velocity_no_messages (s : DriverState) (d : VelocityData)
    (h : d.velocity_valid = false) :
    handle_velocity s d = (s, []) := by
  simp [handle_velocity, h]

/-- C6, witness at a concrete invalid record with non-trivial fields. -/
theorem invalid_velocity_no_messages_witness :
    handle_velocity initialState ⟨1, 2, 3, 10, false, 0.1, 500⟩ = (initialState, []) :=
  invalid_velocity_no_messages initialState ⟨1, 2, 3, 10, false, 0.1, 500⟩ (by rfl)

/-- C4.  For every valid velocity record the orientation remap is the fixed
permutation-with-sign of the code: with orientation `DOWN` the position delta,
attitude delta and speed vector pass through unchanged, and with `FORWARD` the
position delta becomes `(dz, dy, -dx)`, the attitude delta becomes
`(dYaw, dPitch, -dRoll)`, and the speed vector becomes `(vz, vy, -vx)` (so the
input delta `(1, 2, 3)` under `FORWARD` yields `(3, 2, -1)`). -/
theorem velocity_orientation_remap (s : DriverState) (d : VelocityData)
    (hv : d.velocity_valid = true) :
    (s.should_send = MessageType.POSITION_DELTA → s.orientation = DVL_DOWN →
      MavMessage.visionDelta
        (d.time / 1000 * d.vx, d.time / 1000 * d.vy, d.time / 1000 * d.vz)
        (s.current_attitude.1 - s.last_attitude.1,
         s.current_attitude.2.1 - s.last_attitude.2.1,
         s.current_attitude.2.2 - s.last_attitude.2.2)
        (d.time * 1000) (confidence d.fom true) ∈ (handle_velocity s d).2) ∧
    (s.should_send = MessageType.POSITION_DELTA → s.orientation = DVL_FORWARD →
      MavMessage.visionDelta
        (d.time / 1000 * d.vz, d.time / 1000 * d.vy, -(d.time / 1000 * d.vx))
        (s.current_attitude.2.2 - s.last_attitude.2.2,
         s.current_attitude.2.1 - s.last_attitude.2.1,
         -(s.current_attitude.1 - s.last_attitude.1))
        (d.time * 1000) (confidence d.fom true) ∈ (handle_velocity s d).2) ∧
    (s.should_send = MessageType.SPEED_ESTIMATE → s.orientation = DVL_DOWN →
      MavMessage.visionSpeedEstimate (d.vx, d.vy, d.vz) ∈ (handle_velocity s d).2) ∧
    (s.should_send = MessageType.SPEED_ESTIMATE → s.orientation = DVL_FORWARD →
      MavMessage.visionSpeedEstimate (d.vz, d.vy, -d.vx) ∈ (handle_velocity s d).2) := by
  refine ⟨?_, ?_, ?_, ?_⟩ <;> intro hm ho <;>
    simp [handle_velocity, hv, hm, ho, DVL_DOWN, DVL_FORWARD]

/-- C4, witness: the fixture vector of the spec.  A valid record with `dt = 1 s`
and velocity `(1, 2, 3)` under `FORWARD` produces the position delta
`(3, 2, -1)`. -/
theorem velocity_orientation_remap_witness :
    MavMessage.visionDelta (3, 2, -1) (0, 0, 0) 1000000 100 ∈
      (handle_velocity { initialState with orientation := DVL_FORWARD }
        ⟨1, 2, 3, 0, true, 0, 1000⟩).2 := by
  have h := (velocity_orientation_remap { initialState with orientation := DVL_FORWARD }
    ⟨1, 2, 3, 0, true, 0, 1000⟩ rfl).2.1 rfl rfl
  have h100 : confidence 0 true = 100 := by norm_num [confidence, min_def]
  rw [h100] at h
  norm_num [initialState] at h
  exact h

/-- C10.  A velocity record with `velocity_valid = false` leaves both
`last_attitude` and `current_attitude` unchanged (the early return skips the
unconditional `last_attitude := current_attitude` update that every valid
record performs), so the attitude delta emitted at the next valid record spans
all attitude observations accumulated since the last valid one: after an
invalid record and a fresh attitude observation, the delta runs from the
attitude recorded at the last valid record to the freshly observed one. -/
theorem invalid_velocity_preserves_attitude (s : DriverState) (d e : VelocityData)
    (p : PositionLocalData) (hd : d.velocity_valid = false) (he : e.velocity_valid = true)
    (hm : s.should_send = MessageType.POSITION_DELTA) (ho : s.orientation = DVL_DOWN) :
    (handle_velocity s d).1.last_attitude = s.last_attitude ∧
    (handle_velocity s d).1.current_attitude = s.current_attitude ∧
    (∀ (s2 : DriverState) (v : VelocityData), v.velocity_valid = true →
      (handle_velocity s2 v).1.last_attitude = s2.current_attitude) ∧
    ∃ pd dtv cv, MavMessage.visionDelta pd
        (p.roll - s.last_attitude.1, p.pitch - s.last_attitude.2.1,
         p.yaw - s.last_attitude.2.2) dtv cv
      ∈ (handle_velocity (handle_position_local (handle_velocity s d).1 p).1 e).2 := by
  have h1 : handle_velocity s d = (s, []) := by simp [handle_velocity, hd]
  have h2 : (handle_position_local s p).1 =
      { s with current_attitude := (p.roll, p.pitch, p.yaw) } := by
    simp [handle_position_local, hm]
  refine ⟨by rw [h1], by rw [h1], ?_, ?_⟩
  · intro s2 v hv
    simp [handle_velocity, hv]
  · refine ⟨(e.time / 1000 * e.vx, e.time / 1000 * e.vy, e.time / 1000 * e.vz),
      e.time * 1000, confidence e.fom true, ?_⟩
    rw [h1, h2]
    simp [handle_velocity, he, hm, ho, DVL_DOWN]

/-- C10, witness at concrete records: the invalid record is ignored, and
after observing attitude `(4, 5, 6)` the delta of the next valid record spans from
the pre-invalid `last_attitude = (0, 0, 0)`. -/
theorem invalid_velocity_preserves_attitude_witness :
    (handle_velocity initialState ⟨1, 1, 1, 1, false, 0, 100⟩).1.last_attitude = (0, 0, 0) ∧
    ∃ pd dtv cv, MavMessage.visionDelta pd (4 - 0, 5 - 0, 6 - 0) dtv cv
      ∈ (handle_velocity
          (handle_position_local
            (handle_velocity initialState ⟨1, 1, 1, 1, false, 0, 100⟩).1
            ⟨0, 0, 0, 4, 5, 6, 0⟩).1
          ⟨1, 2, 3, 0, true, 0, 1000⟩).2 := by
  have h := invalid_velocity_preserves_attitude initialState ⟨1, 1, 1, 1, false, 0, 100⟩
    ⟨1, 2, 3, 0, true, 0, 1000⟩ ⟨0, 0, 0, 4, 5, 6, 0⟩ rfl rfl rfl rfl
  exact ⟨h.1, h.2.2.2⟩

theorem reset_counter_dvlStep (s : DriverState) (op : DvlOp) :
    (dvlStep s op).reset_counter =
      s.reset_counter + (if opBumpsCounter op then 1 else 0) := by
  cases op with
  | setGpsOrigin lat lon => simp [dvlStep, opBumpsCounter]
  | setCurrentPosition lat lon oldTimeRead polls depthRead attitudeRead =>
    cases hb : (has_origin_set oldTimeRead polls).1 <;>
      cases depthRead <;> cases attitudeRead <;>
        simp [dvlStep, opBumpsCounter, hb]
  | handleVelocity d =>
    cases hv : d.velocity_valid <;> simp [dvlStep, opBumpsCounter, handle_velocity, hv]
  | handlePositionLocal p =>
    by_cases hm : s.should_send = MessageType.POSITION_ESTIMATE <;>
      simp [dvlStep, opBumpsCounter, handle_position_local, hm]
  | setOrientation o =>
    by_cases ho : o = DVL_FORWARD ∨ o = DVL_DOWN <;> simp [dvlStep, opBumpsCounter, ho]
  | setEnabled b => simp [dvlStep, opBumpsCounter]
  | setUseAsRangefinder b => simp [dvlStep, opBumpsCounter]
  | setShouldSend m => simp [dvlStep, opBumpsCounter]

/-- C5, counterexample.  `set_gps_origin` establishes the origin but does
*not* increment `reset_counter` (dvl.py lines 257-263 touch only the origin):
starting from the initial state, establishing the origin at `(1, 2)` leaves the
counter at 0 instead of increasing it by exactly one.  The increment actually
sits on the other branch of `set_current_position` — the one taken when the
origin is already established. -/
theorem set_gps_origin_no_counter_bump :
    (dvlStep initialState (DvlOp.setGpsOrigin 1 2)).origin = (1, 2) ∧
    (dvlStep initialState (DvlOp.setGpsOrigin 1 2)).reset_counter = 0 ∧
    (dvlStep initialState (DvlOp.setGpsOrigin 1 2)).reset_counter ≠
      initialState.reset_counter + 1 := by
  refine ⟨rfl, rfl, by decide⟩

/-- C5, amended.  Across every sequence of operations in a run,
`reset_counter` increases by exactly one each time `set_current_position` finds
the origin already established (its `has_origin_set` probe succeeds) *and* its
subsequent depth and attitude reads succeed, so that execution reaches
`reset_counter += 1` and the position estimate is sent; it never changes
otherwise: `set_gps_origin`, the origin-setting path of
`set_current_position`, and a `set_current_position` aborted by a failing
depth or attitude read (which raises before the increment) all leave it
untouched; it never decreases, and it is never reset within a run. -/
theorem reset_counter_trace (s : DriverState) (ops : List DvlOp) :
    (dvlRun s ops).reset_counter = s.reset_counter + ops.countP opBumpsCounter ∧
    s.reset_counter ≤ (dvlRun s ops).reset_counter := by
  suffices h : (dvlRun s ops).reset_counter = s.reset_counter + ops.countP opBumpsCounter by
    exact ⟨h, by omega⟩
  induction ops generalizing s with
  | nil => simp [dvlRun]
  | cons op rest ih =>
    have hstep := reset_counter_dvlStep s op
    have hrec := ih (dvlStep s op)
    simp only [dvlRun, List.foldl_cons] at hrec ⊢
    rw [hrec, hstep, List.countP_cons]
    by_cases hb : opBumpsCounter op = true <;> simp [hb] <;> omega

theorem hasOriginSetLoop_all_same {t : ℚ} {l : List (Option OriginReport)}
    (h : ∀ p ∈ l, isSamePoll t p = true) : hasOriginSetLoop t l = (false, none) := by
  induction l with
  | nil => rfl
  | cons p rest ih =>
    cases p with
    | none =>
      have := h none (by simp)
      simp [isSamePoll] at this
    | some r =>
      have hr := h (some r) (by simp)
      simp only [isSamePoll, decide_eq_true_eq] at hr
      simp only [hasOriginSetLoop, hr, ne_eq, not_true_eq_false, if_false]
      exact ih fun q hq => h q (by simp [hq])

theorem hasOriginSetLoop_fail {t : ℚ} (pre post : List (Option OriginReport))
    (h : ∀ p ∈ pre, isSamePoll t p = true) :
    hasOriginSetLoop t (pre ++ none :: post) = (false, none) := by
  induction pre with
  | nil => rfl
  | cons p rest ih =>
    cases p with
    | none =>
      have := h none (by simp)
      simp [isSamePoll] at this
    | some r =>
      have hr := h (some r) (by simp)
      simp only [isSamePoll, decide_eq_true_eq] at hr
      simp only [List.cons_append, hasOriginSetLoop, hr, ne_eq, not_true_eq_false, if_false]
      exact ih fun q hq => h q (by simp [hq])

theorem hasOriginSetLoop_true_iff {t : ℚ} {l : List (Option OriginReport)} :
    (hasOriginSetLoop t l).1 = true ↔
      ∃ pre r post, l = pre ++ some r :: post ∧ (∀ p ∈ pre, isSamePoll t p = true) ∧
        r.time_usec ≠ t ∧
        hasOriginSetLoop t l = (true, some (r.latitude * 1e-7, r.longitude * 1e-7)) := by
  induction l with
  | nil =>
    constructor
    · intro h
      simp [hasOriginSetLoop] at h
    · rintro ⟨pre, r, post, hl, -⟩
      exact absurd hl (by simp)
  | cons p rest ih =>
    cases p with
    | none =>
      constructor
      · intro h
        simp [hasOriginSetLoop] at h
      · rintro ⟨pre, r, post, hl, hall, -, heq⟩
        simp [hasOriginSetLoop] at heq
    | some r0 =>
      by_cases hr : r0.time_usec = t
      · have hcont : hasOriginSetLoop t (some r0 :: rest) = hasOriginSetLoop t rest := by
          simp [hasOriginSetLoop, hr]
        rw [hcont, ih]
        constructor
        · rintro ⟨pre, r, post, hrest, hall, hne, heq⟩
          refine ⟨some r0 :: pre, r, post, by simp [hrest], ?_, hne, heq⟩
          intro q hq
          rcases List.mem_cons.mp hq with hq0 | hq1
          · subst hq0
            simp [isSamePoll, hr]
          · exact hall q hq1
        · rintro ⟨pre, r, post, hl, hall, hne, heq⟩
          cases pre with
          | nil =>
            simp at hl
            rw [← hl.1] at hne
            exact absurd hr hne
          | cons q pre' =>
            simp at hl
            exact ⟨pre', r, post, hl.2, fun x hx => hall x (by simp [hx]), hne, heq⟩
      · have hstop : hasOriginSetLoop t (some r0 :: rest) =
            (true, some (r0.latitude * 1e-7, r0.longitude * 1e-7)) := by
          simp [hasOriginSetLoop, hr]
        rw [hstop]
        simp only [true_iff]
        exact ⟨[], r0, rest, rfl, by simp, hr, rfl⟩

/-- C7.  `has_origin_set` with the previously observed timestamp and the
(at most five) poll outcomes: it returns false without mutating the stored
origin whenever all five polls report the previously observed timestamp; it
returns false (again with no origin mutation) whenever the query fails at any
executed point, i.e. at the first poll outcome not reporting the old
timestamp; and it returns true — recording the polled origin scaled by
`1e-7` — exactly when some executed poll observes a report whose timestamp
differs from the previously observed one. -/
theorem has_origin_set_spec (oldTimeRead : Option ℚ) (polls : List (Option OriginReport))
    (h5 : polls.length = 5) :
    ((∀ p ∈ polls, isSamePoll (oldTimeRead.getD 0) p = true) →
      has_origin_set oldTimeRead polls = (false, none)) ∧
    (∀ pre post, polls = pre ++ none :: post →
      (∀ p ∈ pre, isSamePoll (oldTimeRead.getD 0) p = true) →
      has_origin_set oldTimeRead polls = (false, none)) ∧
    ((has_origin_set oldTimeRead polls).1 = true ↔
      ∃ pre r post, polls = pre ++ some r :: post ∧
        (∀ p ∈ pre, isSamePoll (oldTimeRead.getD 0) p = true) ∧
        r.time_usec ≠ oldTimeRead.getD 0 ∧
        has_origin_set oldTimeRead polls =
          (true, some (r.latitude * 1e-7, r.longitude * 1e-7))) := by
  have htake : polls.take 5 = polls := List.take_of_length_le (by omega)
  have hrun : has_origin_set oldTimeRead polls =
      hasOriginSetLoop (oldTimeRead.getD 0) polls := by
    rw [has_origin_set, htake]
  refine ⟨?_, ?_, ?_⟩
  · intro h
    rw [hrun]
    exact hasOriginSetLoop_all_same h
  · intro pre post hdec h
    rw [hrun, hdec]
    exact hasOriginSetLoop_fail pre post h
  · rw [hrun]
    exact hasOriginSetLoop_true_iff

/-- C7, witness: with previously observed timestamp 7, five polls all
reporting timestamp 7 make `has_origin_set` return false with no origin
recorded. -/
theorem has_origin_set_spec_witness :
    has_origin_set (some 7) [some ⟨7, 10, 20⟩, some ⟨7, 11, 21⟩, some ⟨7, 12, 22⟩,
      some ⟨7, 13, 23⟩, some ⟨7, 14, 24⟩] = (false, none) :=
  (has_origin_set_spec (some 7) [some ⟨7, 10, 20⟩, some ⟨7, 11, 21⟩, some ⟨7, 12, 22⟩,
    some ⟨7, 13, 23⟩, some ⟨7, 14, 24⟩] (by rfl)).1 (by decide)

theorem check_temperature_fires {last now : ℚ} (q : Option ℚ) (h : ¬(now - last < 30)) :
    (check_temperature last now q).1 = now ∧
    TempEffect.query ∈ (check_temperature last now q).2 := by
  cases q with
  | none => simp [check_temperature, h]
  | some temp =>
    by_cases ht : temp > 45 <;> simp [check_temperature, h, ht]

theorem firedTimes_head (evs : List (ℚ × Option ℚ)) :
    ∀ (last f : ℚ), (firedTimes last evs).head? = some f → last + 30 ≤ f := by
  induction evs with
  | nil =>
    intro last f h
    simp [firedTimes] at h
  | cons e rest ih =>
    intro last f h
    obtain ⟨now, q⟩ := e
    by_cases hg : now - last < 30
    · have hc : check_temperature last now q = (last, []) := by
        simp [check_temperature, hg]
      rw [firedTimes, hc] at h
      simp only [List.not_mem_nil, if_false] at h
      exact ih last f h
    · have hc := check_temperature_fires q hg
      rw [firedTimes, if_pos hc.2] at h
      simp only [List.head?_cons, Option.some.injEq] at h
      subst h
      linarith

theorem firedTimes_chain (last : ℚ) (evs : List (ℚ × Option ℚ)) :
    List.Chain' (fun a b => a + 30 ≤ b) (firedTimes last evs) := by
  induction evs generalizing last with
  | nil => simp [firedTimes]
  | cons e rest ih =>
    obtain ⟨now, q⟩ := e
    by_cases hg : now - last < 30
    · have hc : check_temperature last now q = (last, []) := by
        simp [check_temperature, hg]
      rw [firedTimes, hc]
      simpa using ih last
    · have hc := check_temperature_fires q hg
      rw [firedTimes, if_pos hc.2, hc.1]
      rw [List.chain'_cons']
      exact ⟨fun f hf => firedTimes_head rest now f hf, ih now⟩

/-- C9.  The thermal guard: an invocation within 30 s of the last performed
check is a complete no-op (no status query, no alert, no state change); a
failure of the query or of parsing its response is surfaced only as a local
status update (never an alert, never an escaping exception — the model
totalises the caught exception into the `statusError` effect); an alert is only
ever issued by an invocation that performs the query; and across any sequence
of invocations — even one per loop tick — consecutive performed queries are at
least 30 s apart, so at most one query (hence at most one over-temperature
alert) occurs per 30-second window. -/
theorem thermal_guard_rate_limit (last now : ℚ) (q : Option ℚ) :
    (now - last < 30 → check_temperature last now q = (last, [])) ∧
    (¬(now - last < 30) →
      check_temperature last now none = (now, [TempEffect.query, TempEffect.statusError])) ∧
    (∀ temp, TempEffect.alertTooHot temp ∈ (check_temperature last now q).2 →
      TempEffect.query ∈ (check_temperature last now q).2 ∧ ¬(now - last < 30)) ∧
    (∀ (last0 : ℚ) (evs : List (ℚ × Option ℚ)),
      List.Chain' (fun a b => a + 30 ≤ b) (firedTimes last0 evs)) := by
  refine ⟨?_, ?_, ?_, fun last0 evs => firedTimes_chain last0 evs⟩
  · intro h
    simp [check_temperature, h]
  · intro h
    simp [check_temperature, h]
  · intro temp halert
    by_cases hg : now - last < 30
    · rw [show check_temperature last now q = (last, []) from by simp [check_temperature, hg]]
        at halert
      simp at halert
    · exact ⟨(check_temperature_fires q hg).2, hg⟩

/-- C9, witness: concretely, an invocation 10 s after the last check is a
no-op, and one 40 s after a failed query surfaces only the status update. -/
theorem thermal_guard_rate_limit_witness :
    check_temperature 0 10 (some 50) = (0, []) ∧
    check_temperature 0 40 none = (40, [TempEffect.query, TempEffect.statusError]) :=
  ⟨(thermal_guard_rate_limit 0 10 (some 50)).1 (by norm_num),
   (thermal_guard_rate_limit 0 40 (some 50)).2.1 (by norm_num)⟩

/-- C8, counterexample.  The scale constant of the code is
`LATLON_TO_CM = 1.1131884502145034e5`, not the claimed `K = 111318.845`:
already at latitude 1 with origin `(0, 0)` the computed x differs from
`(lat - origin_lat) * 111318.845`. -/
theorem lat_lng_constant_mismatch :
    (lat_lng_to_NE_XY_cm (0, 0) 1 0).1 ≠ (1 - 0) * 111318.845 := by
  simp only [lat_lng_to_NE_XY_cm, LATLON_TO_CM]
  norm_num

/-- C8, amended.  The local-offset computation returns
`x = (lat - origin_lat) * K` and
`y = max(cos(radians((lat + origin_lat)/2)), 0.01) * K * (lon - origin_lon)`
with `K = 111318.84502145034` (the code constant `LATLON_TO_CM`, near 111318.845); with
origin `(0, 0)` and target `(0.001, 0.001)` both offsets are within 0.01 of
111.32. -/
theorem lat_lng_to_NE_XY_cm_spec (origin : ℝ × ℝ) (lat lon : ℝ) :
    lat_lng_to_NE_XY_cm origin lat lon =
      ((lat - origin.1) * 111318.84502145034,
       max (Real.cos ((lat + origin.1) / 2 * Real.pi / 180)) 0.01 *
         111318.84502145034 * (lon - origin.2)) ∧
    |(lat_lng_to_NE_XY_cm (0, 0) 0.001 0.001).1 - 111.32| < 0.01 ∧
    |(lat_lng_to_NE_XY_cm (0, 0) 0.001 0.001).2 - 111.32| < 0.01 := by
  refine ⟨?_, ?_, ?_⟩
  · simp only [lat_lng_to_NE_XY_cm, longitude_scale, LATLON_TO_CM]
  · simp only [lat_lng_to_NE_XY_cm, LATLON_TO_CM]
    rw [abs_sub_lt_iff]
    constructor <;> norm_num
  · have hpi_lt : Real.pi < 3.15 := Real.pi_lt_d2
    have hpi_pos : 0 < Real.pi := Real.pi_pos
    have hθ0 : (0 : ℝ) ≤ (0.001 + 0) / 2 * Real.pi / 180 := by positivity
    have hθle : (0.001 + 0) / 2 * Real.pi / 180 ≤ 0.00000875 := by nlinarith
    have hcos1 : Real.cos ((0.001 + 0) / 2 * Real.pi / 180) ≤ 1 := Real.cos_le_one _
    have hcoslb : (0.9999999 : ℝ) ≤ Real.cos ((0.001 + 0) / 2 * Real.pi / 180) := by
      have h1 : 1 - ((0.001 + 0) / 2 * Real.pi / 180) ^ 2 / 2 ≤
          Real.cos ((0.001 + 0) / 2 * Real.pi / 180) := Real.one_sub_sq_div_two_le_cos
      nlinarith
    have hclb : (0.9999999 : ℝ) ≤ max (Real.cos ((0.001 + 0) / 2 * Real.pi / 180)) 0.01 :=
      le_trans hcoslb (le_max_left _ _)
    have hcub : max (Real.cos ((0.001 + 0) / 2 * Real.pi / 180)) 0.01 ≤ 1 :=
      max_le hcos1 (by norm_num)
    simp only [lat_lng_to_NE_XY_cm, longitude_scale, LATLON_TO_CM]
    rw [abs_sub_lt_iff]
    constructor <;> nlinarith

end Dvl
